import Mathlib

/-!
Verification of the voice-to-SAN chess move parser and the game-state
synchronizer of the Play_Chess_With_Voice repository.

The parser (`src/game/chess_notation_parser_SAN.py`) is embedded as
executable functions over token lists; the game-state machine
(`src/game/game_state.py`) is embedded as a state-passing step function.
Both are parameterized over the external rules-engine collaborator
(the python-chess library): `pushUci` stands for `board.push_uci`,
`sanOf` for `board.san`, and an abstract `parseSanFn` for
`board.parse_san`.  Python runtime errors that the source can raise
(IndexError, UnboundLocalError) are represented explicitly in the
result type rather than swallowed.
-/

namespace ChessVoice

/-! ### Lexical normalization (`parse_voice_to_san`, lines 10-23)

`text.lower().strip()` followed by `text.split()` and, per word,
`re.sub(r'[^\w]', '', word)`, keeping only nonempty words. -/

def isWsChar (c : Char) : Bool :=
  c == ' ' || c == '\t' || c == '\n' || c == '\r' || c == '\x0b' || c == '\x0c'

def splitWsAux : List Char → List Char → List (List Char)
  | [], acc => if acc.isEmpty then [] else [acc.reverse]
  | c :: cs, acc =>
    if isWsChar c then
      if acc.isEmpty then splitWsAux cs [] else acc.reverse :: splitWsAux cs []
    else splitWsAux cs (c :: acc)

def splitWsChars (l : List Char) : List (List Char) := splitWsAux l []

/-- Python `s.split()` (split on whitespace runs, no empty words). -/
def splitWhite (s : String) : List String := (splitWsChars s.data).map String.mk

/-- Python regex class `\w` on ASCII input: letters, digits, underscore. -/
def isWordChar (c : Char) : Bool := c.isAlphanum || c == '_'

/-- `cleaned_words` of `parse_voice_to_san`: lowercase, split on
whitespace, strip non-word characters from each word, drop empties. -/
def cleanWords (text : String) : List String :=
  ((splitWsChars (text.data.map Char.toLower)).map
      (fun w => String.mk (w.filter isWordChar))).filter (fun s => s != "")

/-- Python `str.strip()` composed with `str.lower()`, as a char list. -/
def lowerStrip (text : String) : List Char :=
  (((text.data.map Char.toLower).dropWhile isWsChar).reverse.dropWhile isWsChar).reverse

/-- `startsWithChars needle hay`: `hay` begins with `needle`. -/
def startsWithChars : List Char → List Char → Bool
  | [], _ => true
  | _ :: _, [] => false
  | a :: as, b :: bs => a == b && startsWithChars as bs

/-- Python substring test `needle in hay`. -/
def containsSub : List Char → List Char → Bool
  | needle, [] => startsWithChars needle []
  | needle, h :: t => startsWithChars needle (h :: t) || containsSub needle t

/-! ### Vocabulary tables (`parse_voice_to_san`, lines 25-59) -/

def filesList : List (String × String) :=
  [("a", "a"), ("alpha", "a"), ("ay", "a"), ("hey", "a"),
   ("b", "b"), ("bravo", "b"), ("bee", "b"), ("be", "b"),
   ("c", "c"), ("charlie", "c"), ("see", "c"), ("sea", "c"),
   ("d", "d"), ("delta", "d"), ("dee", "d"),
   ("e", "e"), ("echo", "e"), ("ee", "e"),
   ("f", "f"), ("foxtrot", "f"), ("ef", "f"),
   ("g", "g"), ("golf", "g"), ("gee", "g"),
   ("h", "h"), ("hotel", "h"), ("aitch", "h")]

def ranksList : List (String × String) :=
  [("one", "1"), ("1", "1"), ("won", "1"),
   ("two", "2"), ("2", "2"), ("to", "2"), ("too", "2"),
   ("three", "3"), ("3", "3"), ("tree", "3"),
   ("four", "4"), ("4", "4"), ("for", "4"),
   ("five", "5"), ("5", "5"),
   ("six", "6"), ("6", "6"),
   ("seven", "7"), ("7", "7"),
   ("eight", "8"), ("8", "8"), ("ate", "8")]

def piecesList : List (String × String) :=
  [("king", "K"), ("queen", "Q"), ("rook", "R"), ("bishop", "B"),
   ("knight", "N"), ("night", "N"), ("pawn", ""), ("pon", "")]

/-- The `promotion_map` used at lines 134-136 and 187-189. -/
def promoOf (w : String) : Option String :=
  List.lookup w [("queen", "Q"), ("rook", "R"), ("bishop", "B"),
                 ("knight", "N"), ("night", "N")]

/-- Capture synonyms (`["takes", "captures", "x"]`). -/
def capWord (w : String) : Bool := w == "takes" || w == "captures" || w == "x"

def hasCaptureWord (ws : List String) : Bool :=
  ws.contains "takes" || ws.contains "captures" || ws.contains "x"

/-- `any(word in cleaned_words for word in ["castle", "castles", "castling"])`. -/
def hasCastle (ws : List String) : Bool :=
  ws.contains "castle" || ws.contains "castles" || ws.contains "castling"

/-- `any(word in cleaned_words for word in ["queen", "queenside", "long", "queens"])`. -/
def hasQueenside (ws : List String) : Bool :=
  ws.contains "queen" || ws.contains "queenside" || ws.contains "long" || ws.contains "queens"

/-- A combined two-character square token such as `"g5"`
(lines 114-117 and 225-231). -/
def combinedSquare (w : String) : Option String :=
  match w.data with
  | [c1, c2] =>
    match List.lookup (String.mk [c1]) filesList, List.lookup (String.mk [c2]) ranksList with
    | some fv, some rv => some (fv ++ rv)
    | _, _ => none
  | _ => none

/-! ### The pawn-capture special block (`parse_voice_to_san`, lines 68-147) -/

/-- Pattern 1 (lines 84-88): the word after the first `"from"`, if a file. -/
def fromFileSource : List String → Option String
  | [] => none
  | a :: t =>
    if a == "from" then
      match t with
      | x :: _ => List.lookup x filesList
      | [] => none
    else fromFileSource t

/-- Pattern 2 (lines 90-93): a file token immediately before the first
`"pawn"` token. -/
def fileBeforePawnSource : List String → Option String
  | [] => none
  | [_] => none
  | a :: b :: t =>
    if a == "pawn" then none
    else if b == "pawn" then List.lookup a filesList
    else fileBeforePawnSource (b :: t)

/-- Pattern 3 (lines 95-101): the first file token strictly before the
first capture word (requires the capture word not to be token 0). -/
def fileBeforeCaptureSource : List String → Option String
  | [] => none
  | a :: t =>
    if capWord a then none
    else
      match List.lookup a filesList with
      | some v => if t.any capWord then some v else none
      | none => fileBeforeCaptureSource t

/-- `source_file` resolution of the pawn-capture block (lines 81-101):
pattern 1 if `"from"` is present (pattern 2 is an `elif`), otherwise
pattern 2; pattern 3 as fallback when still unresolved. -/
def specialSource (ws : List String) : Option String :=
  match (if ws.contains "from" then fromFileSource ws else fileBeforePawnSource ws) with
  | some v => some v
  | none => fileBeforeCaptureSource ws

/-- Index of the first capture word (list length when absent). -/
def capIdx : List String → Nat
  | [] => 0
  | a :: t => if capWord a then 0 else capIdx t + 1

/-- Index of the first `"promote"`/`"promotes"` (list length when absent). -/
def promoIdx : List String → Nat
  | [] => 0
  | a :: t => if a == "promote" || a == "promotes" then 0 else promoIdx t + 1

/-- Target-square search of the pawn-capture block (lines 104-117):
first file+rank pair (split or combined) in the given token run. -/
def findTarget : List String → Option String
  | [] => none
  | w :: rest =>
    match List.lookup w filesList, rest with
    | some fv, r :: _ =>
      match List.lookup r ranksList with
      | some rv => some (fv ++ rv)
      | none =>
        match combinedSquare w with
        | some sq => some sq
        | none => findTarget rest
    | _, _ =>
      match combinedSquare w with
      | some sq => some sq
      | none => findTarget rest

/-- `target_square` of the pawn-capture block: searched after the first
capture word. -/
def specialTarget (ws : List String) : Option String :=
  findTarget (ws.drop (capIdx ws + 1))

/-- Promotion piece of the pawn-capture block (lines 119-137): after the
first `"promote"`/`"promotes"`, skipping `"to"` fillers. -/
def specialPromo (ws : List String) : Option String :=
  if ws.contains "promote" || ws.contains "promotes" then
    match (ws.drop (promoIdx ws + 1)).dropWhile (fun x => x == "to") with
    | p :: _ => promoOf p
    | [] => none
  else none

def promoSuffix : Option String → String
  | some p => "=" ++ p
  | none => ""

/-! ### The general scan (`parse_voice_to_san`, lines 149-233) -/

/-- The move skeleton accumulated by the general scan. -/
structure Skel where
  piece : Option String := none
  capture : Bool := false
  target : Option String := none
  fromFile : Option String := none
  fromRank : Option String := none
  promo : Option String := none
  deriving DecidableEq, Repr

/-- One iteration of the scan loop at the current token `w` with
remaining tokens `rest`: returns the tokens left for the next
iteration and the updated skeleton.  The branch order is exactly the
order of the checks at lines 162-231. -/
def scanStep (w : String) (rest : List String) (sk : Skel) : List String × Skel :=
  if (List.lookup w piecesList).isSome ∧ sk.piece = none then
    (rest, { sk with piece := List.lookup w piecesList })
  else if capWord w then
    (rest, { sk with capture := true })
  else if w == "to" then
    (rest, sk)
  else if w == "promote" || w == "promotes" then
    match rest.dropWhile (fun x => x == "to") with
    | p :: rest2 =>
      if (promoOf p).isSome then (rest2, { sk with promo := promoOf p })
      else (rest, sk)
    | [] => (rest, sk)
  else if w == "from" then
    match rest with
    | x :: rest2 =>
      if (List.lookup x filesList).isSome then
        (rest2, { sk with fromFile := List.lookup x filesList })
      else if (List.lookup x ranksList).isSome then
        (rest2, { sk with fromRank := List.lookup x ranksList })
      else (rest2, sk)
    | [] => ([], sk)
  else
    match List.lookup w filesList, rest with
    | some fv, r :: rest2 =>
      match List.lookup r ranksList with
      | some rv => (rest2, { sk with target := some (fv ++ rv) })
      | none =>
        match combinedSquare w with
        | some sq => (rest, { sk with target := some sq })
        | none => (rest, sk)
    | _, _ =>
      match combinedSquare w with
      | some sq => (rest, { sk with target := some sq })
      | none => (rest, sk)

/-- The scan loop.  Each iteration consumes at least one token, so fuel
equal to the token count always suffices. -/
def scanAux : Nat → List String → Skel → Skel
  | 0, _, sk => sk
  | _ + 1, [], sk => sk
  | fuel + 1, w :: rest, sk =>
    scanAux fuel (scanStep w rest sk).1 (scanStep w rest sk).2

/-- The general scan run from an arbitrary skeleton. -/
def scanWordsFrom (ws : List String) (sk : Skel) : Skel := scanAux ws.length ws sk

/-- The general scan from the initial (all-empty) skeleton, as at
lines 150-155. -/
def scanWords (ws : List String) : Skel := scanWordsFrom ws {}

/-- SAN assembly from the scanned skeleton (lines 235-270), including
the no-target gate and the pawn-capture-without-source-file gate. -/
def assemble (sk : Skel) : Option String :=
  match sk.target with
  | none => none
  | some tgt =>
    if sk.piece = some "" ∧ sk.capture = true ∧ sk.fromFile = none then none
    else
      some ((match sk.piece with | some p => p | none => "")
        ++ (match sk.fromFile with | some f => f | none => "")
        ++ (match sk.fromRank with | some r => r | none => "")
        ++ (if sk.capture then "x" else "")
        ++ tgt
        ++ promoSuffix sk.promo)

/-- `parse_voice_to_san` on the cleaned token list: castling
short-circuit, then the pawn-capture special block (falling through to
the general scan when incomplete), then the general scan and assembly. -/
def parseWords (ws : List String) : Option String :=
  if hasCastle ws then
    if hasQueenside ws then some "O-O-O" else some "O-O"
  else if ws.contains "pawn" && hasCaptureWord ws then
    match specialSource ws, specialTarget ws with
    | some sf, some tg => some (sf ++ "x" ++ tg ++ promoSuffix (specialPromo ws))
    | _, _ => assemble (scanWords ws)
  else assemble (scanWords ws)

/-- `parse_voice_to_san` (lines 8-270). -/
def parse_voice_to_san (text : String) : Option String :=
  parseWords (cleanWords text)

/-! ### Conditions under which no pawn-capture source file is resolvable -/

/-- Some adjacent pair of tokens is `"from"` followed by a file token
(the phrase pattern 1 looks for). -/
def hasFromFilePhrase : List String → Bool
  | [] => false
  | [_] => false
  | a :: b :: t =>
    (a == "from" && (List.lookup b filesList).isSome) || hasFromFilePhrase (b :: t)

/-- A file token stands immediately before the first `"pawn"` token
(pattern 2 of the pawn-capture block succeeds). -/
def fileBeforePawn (ws : List String) : Bool := (fileBeforePawnSource ws).isSome

/-- A bare file token occurs before the first capture word
(pattern 3 of the pawn-capture block succeeds). -/
def fileBeforeCapture (ws : List String) : Bool := (fileBeforeCaptureSource ws).isSome

/-- A pawn synonym (`"pawn"` or `"pon"`, the two pawn entries of the
pieces table) occurs in the token list. -/
def hasPawnSyn (ws : List String) : Bool := ws.contains "pawn" || ws.contains "pon"

/-! ### Board validation (`convert_san_to_uci`, lines 272-292)

The function is a thin wrapper around `board_state.parse_san` of the
external rules engine, with a `try/except` distinguishing
`chess.InvalidMoveError` (syntactically bad SAN),
`chess.IllegalMoveError` (well-formed but illegal in the position) and
any other exception — all three handlers return `None`.  The rules
engine is modelled as an abstract pure function `parseSanFn`, and the
Python mutable board is modelled by explicit state passing: the second
component of the result is the board as left behind by the call. -/

inductive ChessError where
  | invalidMove
  | illegalMove
  | otherError
  deriving DecidableEq, Repr

def convert_san_to_uci {B : Type} (parseSanFn : B → String → Except ChessError String)
    (sanMove : String) (boardState : B) : Option String × B :=
  match parseSanFn boardState sanMove with
  | Except.ok uci => (some uci, boardState)
  | Except.error _ => (none, boardState)

/-! ### The front-end (`parse_chess_notation_san_to_uci`, lines 294-338)

Session commands are recognised by raw substring matching on the
lowercased, stripped transcript before any move parsing; otherwise the
transcript goes through `parse_voice_to_san` and then the validator
(abstracted here as `resolve`, i.e. `convert_san_to_uci` applied to the
current board). -/

def parse_chess_notation_san_to_uci (resolve : String → Option String)
    (text : String) : Option String :=
  let t := lowerStrip text
  if containsSub "exit".data t || containsSub "quit".data t then some "EXIT"
  else if containsSub "resign".data t then some "resign"
  else if containsSub "accept draw".data t then some "accept draw"
  else if containsSub "decline draw".data t then some "decline draw"
  else if containsSub "draw".data t then some "draw"
  else
    match parse_voice_to_san text with
    | none => none
    | some san => resolve san

/-! ### The game-state machine (`src/game/game_state.py`)

`GameState.update_from_event` is embedded as a pure step function from
(state, event) to (state, result).  The Python method can raise two
runtime errors, both represented by `UpdateResult.stateError`:
`moves[-1]` on an empty list in the black-first-move branch
(IndexError), and `return move_info` with `move_info` never assigned
(UnboundLocalError), which happens whenever no move-application branch
ran and the status is not terminal. -/

structure GameState (B : Type) where
  my_color : Option String
  current_moves : List String
  is_my_turn : Bool
  status : Option String
  board : B
  deriving DecidableEq, Repr

structure GEvent where
  type : String
  moves : Option String
  status : Option String
  winner : Option String
  deriving DecidableEq, Repr

/-- `event.get('moves', '').split() if event.get('moves') else []`
(line 43). -/
def movesOf (e : GEvent) : List String :=
  match e.moves with
  | none => []
  | some s => if s = "" then [] else splitWhite s

/-- Line 45: `(num_moves % 2 == 0) == (self.my_color == 'white')`. -/
def newTurn (myColor : Option String) (numMoves : Nat) : Bool :=
  (numMoves % 2 == 0) == (myColor == some "white")

inductive UpdateResult where
  | gameEnd (kind : String) (winner : Option String)
  | moveInfo (mi : Option (String × String))
  | stateError (msg : String)
  | nonGameState
  deriving DecidableEq, Repr

/-- `check_game_end` (lines 27-35), reading the status just copied from
the event. -/
def check_game_end (status : Option String) (e : GEvent) : Option (String × Option String) :=
  if status = some "mate" then some ("checkmate", e.winner)
  else if status = some "resign" then some ("resign", e.winner)
  else if status = some "draw" then some ("draw", none)
  else none

/-- The common tail of the gameState branch (lines 71-79): copy the
event status, return a terminal classification if any, otherwise return
`move_info` — which raises UnboundLocalError when no branch bound it. -/
def finishUpdate {B : Type} (e : GEvent) (st : GameState B)
    (mi : Option (Option (String × String))) : GameState B × UpdateResult :=
  let st2 := { st with status := e.status }
  match check_game_end e.status e with
  | some kw => (st2, UpdateResult.gameEnd kw.1 kw.2)
  | none =>
    match mi with
    | some m => (st2, UpdateResult.moveInfo m)
    | none => (st2, UpdateResult.stateError "UnboundLocalError")

/-- `GameState.update_from_event` (lines 37-88).  `pushUci` and `sanOf`
stand for `board.push_uci` and `board.san` of the rules engine; in each
move-application branch the SAN is computed on the pre-push board, as
in `get_san_move` being called before `push_uci`. -/
def update_from_event {B : Type} (pushUci : B → String → B) (sanOf : B → String → String)
    (s : GameState B) (e : GEvent) : GameState B × UpdateResult :=
  if e.type = "gameState" then
    if s.current_moves.length = 0 ∧ s.my_color = some "black" then
      match (movesOf e).getLast? with
      | none =>
        ({ s with is_my_turn := newTurn s.my_color (movesOf e).length },
          UpdateResult.stateError "IndexError")
      | some last =>
        finishUpdate e
          { s with is_my_turn := newTurn s.my_color (movesOf e).length,
                   board := pushUci s.board last, current_moves := movesOf e }
          (some (some (last, sanOf s.board last)))
    else if s.current_moves.length < (movesOf e).length then
      if s.current_moves.length = (movesOf e).length - 1 then
        match (movesOf e).getLast? with
        | none =>
          ({ s with is_my_turn := newTurn s.my_color (movesOf e).length },
            UpdateResult.stateError "IndexError")
        | some last =>
          finishUpdate e
            { s with is_my_turn := newTurn s.my_color (movesOf e).length,
                     board := pushUci s.board last, current_moves := movesOf e }
            (some (if newTurn s.my_color (movesOf e).length
                   then some (last, sanOf s.board last) else none))
      else finishUpdate e { s with is_my_turn := newTurn s.my_color (movesOf e).length } none
    else finishUpdate e { s with is_my_turn := newTurn s.my_color (movesOf e).length } none
  else (s, UpdateResult.nonGameState)

/-! ## Helper lemmas -/

theorem finishUpdate_fst {B : Type} (e : GEvent) (st : GameState B)
    (mi : Option (Option (String × String))) :
    (finishUpdate e st mi).1 = { st with status := e.status } := by
  unfold finishUpdate
  split
  · rfl
  · split <;> rfl

theorem check_game_end_none (st : Option String) (e : GEvent)
    (hm : st ≠ some "mate") (hr : st ≠ some "resign") (hd : st ≠ some "draw") :
    check_game_end st e = none := by
  unfold check_game_end
  rw [if_neg hm, if_neg hr, if_neg hd]

theorem finishUpdate_snd_moveInfo {B : Type} (e : GEvent) (st : GameState B)
    (m : Option (String × String))
    (hm : e.status ≠ some "mate") (hr : e.status ≠ some "resign")
    (hd : e.status ≠ some "draw") :
    (finishUpdate e st (some m)).2 = UpdateResult.moveInfo m := by
  unfold finishUpdate
  rw [check_game_end_none e.status e hm hr hd]

theorem dropWhileLengthLe {α : Type} (p : α → Bool) (l : List α) :
    (l.dropWhile p).length ≤ l.length := by
  induction l with
  | nil => simp
  | cons a t ih =>
    rw [List.dropWhile]
    split
    · exact Nat.le_succ_of_le ih
    · exact Nat.le_refl _

theorem scanStep_length (w : String) (rest : List String) (sk : Skel) :
    (scanStep w rest sk).1.length ≤ rest.length := by
  unfold scanStep
  split
  · exact Nat.le_refl _
  split
  · exact Nat.le_refl _
  split
  · exact Nat.le_refl _
  split
  · split
    · rename_i p rest2 heq
      split
      · have h := dropWhileLengthLe (fun x => x == "to") rest
        rw [heq] at h
        simp only [List.length_cons] at h
        dsimp only
        omega
      · exact Nat.le_refl _
    · exact Nat.le_refl _
  split
  · split
    · rename_i x rest2
      split
      · simp
      split
      · simp
      · simp
    · simp
  · split
    · split
      · simp
      · split
        · exact Nat.le_refl _
        · exact Nat.le_refl _
    · split
      · exact Nat.le_refl _
      · exact Nat.le_refl _

theorem scanAux_fuel_eq : ∀ (f1 f2 : Nat) (ws : List String) (sk : Skel),
    ws.length ≤ f1 → ws.length ≤ f2 → scanAux f1 ws sk = scanAux f2 ws sk := by
  intro f1
  induction f1 with
  | zero =>
    intro f2 ws sk h1 _
    have hws : ws = [] := List.length_eq_zero.mp (Nat.le_zero.mp h1)
    subst hws
    cases f2 <;> rfl
  | succ g ih =>
    intro f2 ws sk h1 h2
    cases ws with
    | nil => cases f2 <;> rfl
    | cons w rest =>
      cases f2 with
      | zero => simp at h2
      | succ g2 =>
        simp only [scanAux]
        have hst := scanStep_length w rest sk
        simp only [List.length_cons, Nat.succ_le_succ_iff] at h1 h2
        exact ih g2 _ _ (le_trans hst h1) (le_trans hst h2)

/-- Unrolling the general scan by one loop iteration. -/
theorem scanWordsFrom_step (w : String) (rest : List String) (sk : Skel) :
    scanWordsFrom (w :: rest) sk
      = scanWordsFrom (scanStep w rest sk).1 (scanStep w rest sk).2 := by
  unfold scanWordsFrom
  simp only [List.length_cons, scanAux]
  exact scanAux_fuel_eq rest.length _ _ _ (scanStep_length w rest sk) (Nat.le_refl _)

theorem hffp_tail {a : String} {t : List String}
    (h : hasFromFilePhrase (a :: t) = false) : hasFromFilePhrase t = false := by
  cases t with
  | nil => rfl
  | cons b t2 =>
    rw [hasFromFilePhrase] at h
    exact (Bool.or_eq_false_iff.mp h).2

theorem hffp_dropWhile (p : String → Bool) {l : List String}
    (h : hasFromFilePhrase l = false) :
    hasFromFilePhrase (l.dropWhile p) = false := by
  induction l with
  | nil => exact h
  | cons a t ih =>
    rw [List.dropWhile]
    split
    · exact ih (hffp_tail h)
    · exact h

theorem fromFileSource_none {ws : List String}
    (h : hasFromFilePhrase ws = false) : fromFileSource ws = none := by
  induction ws with
  | nil => rfl
  | cons a t ih =>
    simp only [fromFileSource]
    split
    · rename_i hfrom
      cases t with
      | nil => rfl
      | cons x t2 =>
        rw [hasFromFilePhrase, hfrom] at h
        simp only [Bool.true_and, Bool.or_eq_false_iff] at h
        cases hl : List.lookup x filesList with
        | none => simpa using hl
        | some v => rw [hl] at h; simp at h
    · exact ih (hffp_tail h)

theorem scanStep_fromFile (w : String) (rest : List String) (sk : Skel)
    (h : hasFromFilePhrase (w :: rest) = false) :
    (scanStep w rest sk).2.fromFile = sk.fromFile := by
  unfold scanStep
  split
  · rfl
  split
  · rfl
  split
  · rfl
  split
  · split
    · split <;> rfl
    · rfl
  split
  · rename_i hfrom
    split
    · rename_i x rest2
      split
      · rename_i hfile
        exfalso
        rw [hasFromFilePhrase, hfrom] at h
        simp only [Bool.true_and, Bool.or_eq_false_iff] at h
        rw [h.1] at hfile
        exact absurd hfile (by simp)
      split
      · rfl
      · rfl
    · rfl
  · split
    · split
      · rfl
      · split <;> rfl
    · split <;> rfl

theorem scanStep_hffp (w : String) (rest : List String) (sk : Skel)
    (h : hasFromFilePhrase (w :: rest) = false) :
    hasFromFilePhrase (scanStep w rest sk).1 = false := by
  have ht : hasFromFilePhrase rest = false := hffp_tail h
  unfold scanStep
  split
  · exact ht
  split
  · exact ht
  split
  · exact ht
  split
  · split
    · rename_i p rest2 heq
      split
      · have h2 := hffp_dropWhile (fun x => x == "to") ht
        rw [heq] at h2
        exact hffp_tail h2
      · exact ht
    · exact ht
  split
  · split
    · rename_i x rest2
      have ht2 : hasFromFilePhrase rest2 = false := hffp_tail ht
      split
      · exact ht2
      split
      · exact ht2
      · exact ht2
    · rfl
  · split
    · split
      · rename_i r rest2 _
        exact hffp_tail ht
      · split
        · exact ht
        · exact ht
    · split
      · exact ht
      · exact ht

theorem scanAux_fromFile : ∀ (fuel : Nat) (ws : List String) (sk : Skel),
    hasFromFilePhrase ws = false → (scanAux fuel ws sk).fromFile = sk.fromFile := by
  intro fuel
  induction fuel with
  | zero => intro ws sk _; rfl
  | succ g ih =>
    intro ws sk h
    cases ws with
    | nil => rfl
    | cons w rest =>
      simp only [scanAux]
      rw [ih _ _ (scanStep_hffp w rest sk h), scanStep_fromFile w rest sk h]

theorem scanWords_fromFile (ws : List String)
    (h : hasFromFilePhrase ws = false) : (scanWords ws).fromFile = none :=
  scanAux_fromFile ws.length ws {} h

theorem specialSource_none {ws : List String}
    (h3 : hasFromFilePhrase ws = false)
    (h4 : fileBeforePawn ws = false)
    (h5 : fileBeforeCapture ws = false) :
    specialSource ws = none := by
  have e4 : fileBeforePawnSource ws = none := by
    unfold fileBeforePawn at h4
    cases hp : fileBeforePawnSource ws with
    | none => rfl
    | some v => rw [hp] at h4; simp at h4
  have e5 : fileBeforeCaptureSource ws = none := by
    unfold fileBeforeCapture at h5
    cases hp : fileBeforeCaptureSource ws with
    | none => rfl
    | some v => rw [hp] at h5; simp at h5
  have e1 : (if ws.contains "from" then fromFileSource ws else fileBeforePawnSource ws)
      = none := by
    split
    · exact fromFileSource_none h3
    · exact e4
  unfold specialSource
  rw [e1, e5]

/-! ## Claim theorems -/

/-- Claim C6: for every token sequence containing a castling synonym
(`castle`, `castles`, `castling`), `parse_voice_to_san` short-circuits
to a castle result regardless of any other move pattern: queenside
`O-O-O` when any queenside synonym (`queen`, `queenside`, `long`,
`queens`) is present anywhere in the token stream, kingside `O-O`
otherwise. -/
theorem claim_C6_castle_short_circuit (ws : List String) (h : hasCastle ws = true) :
    parseWords ws = if hasQueenside ws then some "O-O-O" else some "O-O" := by
  simp only [parseWords, h, if_true]

/-- Claim C6 witness: the input `"castle queenside"` yields the
queenside castle. -/
theorem claim_C6_witness : parse_voice_to_san "castle queenside" = some "O-O-O" := by
  have h := claim_C6_castle_short_circuit (cleanWords "castle queenside") (by decide)
  unfold parse_voice_to_san
  rw [h]
  decide

/-- Claim C7: `convert_san_to_uci` never mutates the board it is given
(the board component of the state-passing result is the input board,
for every rules-engine `parse_san`), and repeated calls with the same
SAN on the board left behind by the first call return the same result
and leave the board unchanged. -/
theorem claim_C7_validator_pure {B : Type}
    (parseSanFn : B → String → Except ChessError String) (b : B) (sanMove : String) :
    (convert_san_to_uci parseSanFn sanMove b).2 = b ∧
    (convert_san_to_uci parseSanFn sanMove
        ((convert_san_to_uci parseSanFn sanMove b).2)).1
      = (convert_san_to_uci parseSanFn sanMove b).1 := by
  have h2 : (convert_san_to_uci parseSanFn sanMove b).2 = b := by
    unfold convert_san_to_uci
    cases parseSanFn b sanMove <;> rfl
  exact ⟨h2, by rw [h2]⟩

/-- Claim C8 counterexample: the two failure conditions are NOT
distinguishable to the caller.  With a rules engine that reports a
syntactically invalid SAN and one that reports a positionally illegal
SAN, `convert_san_to_uci` returns the very same value (`none`) in both
cases, so the caller cannot tell the failure kinds apart. -/
theorem claim_C8_counterexample :
    (convert_san_to_uci (fun (_ : Unit) (_ : String) =>
        (Except.error ChessError.invalidMove : Except ChessError String)) "Xq9" ()).1
      = (convert_san_to_uci (fun (_ : Unit) (_ : String) =>
        (Except.error ChessError.illegalMove : Except ChessError String)) "e5" ()).1
    ∧ (convert_san_to_uci (fun (_ : Unit) (_ : String) =>
        (Except.error ChessError.invalidMove : Except ChessError String)) "Xq9" ()).1
      = none :=
  ⟨rfl, rfl⟩

/-- Claim C8 (amended): a syntactically invalid SAN and a syntactically
valid but positionally illegal SAN (and any other rules-engine error)
both surface as the same `none` ("could not validate") result, without
crashing and without touching the board; the two failure kinds are
distinguished only internally (by exception class in the debug output),
not in the value returned to the caller. -/
theorem claim_C8_uniform_failure {B : Type}
    (parseSanFn : B → String → Except ChessError String) (b : B) (sanMove : String)
    (err : ChessError) (h : parseSanFn b sanMove = Except.error err) :
    (convert_san_to_uci parseSanFn sanMove b).1 = none ∧
    (convert_san_to_uci parseSanFn sanMove b).2 = b := by
  unfold convert_san_to_uci
  rw [h]
  exact ⟨rfl, rfl⟩

/-- Claim C8 witness: a concrete invalid-SAN failure surfaces as
`none` with the board untouched. -/
theorem claim_C8_witness :
    (convert_san_to_uci (fun (_ : Unit) (_ : String) =>
        (Except.error ChessError.invalidMove : Except ChessError String)) "Xq9" ()).1 = none :=
  (claim_C8_uniform_failure _ () "Xq9" ChessError.invalidMove rfl).1

/-- Claim C9: session commands are recognised by raw substring matching
on the lowercased stripped transcript, before any castling or move
parsing: a transcript containing `exit` or `quit` yields `EXIT`;
otherwise one containing `resign` yields `resign`; otherwise `accept
draw` / `decline draw` are returned; otherwise any occurrence of `draw`
(even inside a longer word) yields `draw`.  Each result holds for every
`resolve` function, so no move or castle is ever parsed in these
cases. -/
theorem claim_C9_session_commands (resolve : String → Option String) (text : String) :
    ((containsSub "exit".data (lowerStrip text)
        || containsSub "quit".data (lowerStrip text)) = true →
      parse_chess_notation_san_to_uci resolve text = some "EXIT")
    ∧ ((containsSub "exit".data (lowerStrip text)
        || containsSub "quit".data (lowerStrip text)) = false →
       containsSub "resign".data (lowerStrip text) = true →
      parse_chess_notation_san_to_uci resolve text = some "resign")
    ∧ ((containsSub "exit".data (lowerStrip text)
        || containsSub "quit".data (lowerStrip text)) = false →
       containsSub "resign".data (lowerStrip text) = false →
       containsSub "accept draw".data (lowerStrip text) = true →
      parse_chess_notation_san_to_uci resolve text = some "accept draw")
    ∧ ((containsSub "exit".data (lowerStrip text)
        || containsSub "quit".data (lowerStrip text)) = false →
       containsSub "resign".data (lowerStrip text) = false →
       containsSub "accept draw".data (lowerStrip text) = false →
       containsSub "decline draw".data (lowerStrip text) = true →
      parse_chess_notation_san_to_uci resolve text = some "decline draw")
    ∧ ((containsSub "exit".data (lowerStrip text)
        || containsSub "quit".data (lowerStrip text)) = false →
       containsSub "resign".data (lowerStrip text) = false →
       containsSub "accept draw".data (lowerStrip text) = false →
       containsSub "decline draw".data (lowerStrip text) = false →
       containsSub "draw".data (lowerStrip text) = true →
      parse_chess_notation_san_to_uci resolve text = some "draw") := by
  refine ⟨?_, ?_, ?_, ?_, ?_⟩ <;>
    · intros
      simp only [parse_chess_notation_san_to_uci, *]
      simp

/-- Claim C3: after any gameState event processed with `my_color` set,
the resulting `is_my_turn` field equals
`(number of moves in the event is even) == (my_color == white)` —
the parity recomputation at line 45 reaches the stored state on every
path of `update_from_event`, including the error paths. -/
theorem claim_C3_turn_parity {B : Type} (pushUci : B → String → B)
    (sanOf : B → String → String) (s : GameState B) (e : GEvent) (c : String)
    (ht : e.type = "gameState") (hc : s.my_color = some c) :
    (update_from_event pushUci sanOf s e).1.is_my_turn
      = (((movesOf e).length % 2 == 0) == (c == "white")) := by
  have hturn : newTurn s.my_color (movesOf e).length
      = (((movesOf e).length % 2 == 0) == (c == "white")) := by
    rw [newTurn, hc]
    rfl
  unfold update_from_event
  rw [if_pos ht]
  split
  · split <;> simp [finishUpdate_fst, hturn]
  · split
    · split
      · split <;> simp [finishUpdate_fst, hturn]
      · simp [finishUpdate_fst, hturn]
    · simp [finishUpdate_fst, hturn]

/-- Claim C3 witness: a concrete two-move event for a white player
leaves `is_my_turn` true (2 is even and the color is white). -/
theorem claim_C3_witness :
    (update_from_event (fun (b : List String) (mv : String) => b ++ [mv])
        (fun _ mv => mv)
        ⟨some "white", ["e2e4"], false, some "started", ["e2e4"]⟩
        ⟨"gameState", some "e2e4 e7e5", some "started", none⟩).1.is_my_turn = true := by
  have h := claim_C3_turn_parity (fun (b : List String) (mv : String) => b ++ [mv])
    (fun _ mv => mv)
    ⟨some "white", ["e2e4"], false, some "started", ["e2e4"]⟩
    ⟨"gameState", some "e2e4 e7e5", some "started", none⟩ "white" rfl rfl
  rw [h]
  decide

/-- Claim C1: for a gameState event whose move list is exactly one move
longer than the recorded `current_moves`, with `my_color` set, the
black-first-move special case not applying, and the status not
terminal, `update_from_event` applies the last move to the board
replica regardless of origin, records the event's move list, and
returns that move's (uci, san) pair exactly when, after recomputing
parity, it is now the local player's turn (the appended move was the
opponent's); otherwise it returns no move info. -/
theorem claim_C1_delta_move_classification {B : Type} (pushUci : B → String → B)
    (sanOf : B → String → String) (s : GameState B) (e : GEvent) (c last : String)
    (ht : e.type = "gameState") (hc : s.my_color = some c)
    (hnb : ¬(s.current_moves = [] ∧ c = "black"))
    (hlen : (movesOf e).length = s.current_moves.length + 1)
    (hlast : (movesOf e).getLast? = some last)
    (hm : e.status ≠ some "mate") (hr : e.status ≠ some "resign")
    (hd : e.status ≠ some "draw") :
    (update_from_event pushUci sanOf s e).1.board = pushUci s.board last
    ∧ (update_from_event pushUci sanOf s e).1.current_moves = movesOf e
    ∧ (update_from_event pushUci sanOf s e).1.is_my_turn
        = newTurn (some c) (movesOf e).length
    ∧ (update_from_event pushUci sanOf s e).2
        = UpdateResult.moveInfo (if newTurn (some c) (movesOf e).length
            then some (last, sanOf s.board last) else none) := by
  have hb1 : ¬(s.current_moves.length = 0 ∧ s.my_color = some "black") := by
    rintro ⟨h0, hb⟩
    rw [hc] at hb
    exact hnb ⟨List.length_eq_zero.mp h0, Option.some.inj hb⟩
  have hlt : s.current_moves.length < (movesOf e).length := by omega
  have hsub : s.current_moves.length = (movesOf e).length - 1 := by omega
  unfold update_from_event
  rw [if_pos ht, if_neg hb1, if_pos hlt, if_pos hsub, hlast, hc]
  simp only [finishUpdate_fst, finishUpdate_snd_moveInfo e _ _ hm hr hd]
  exact ⟨trivial, trivial, trivial, trivial⟩

/-- Claim C1 witness: white with one recorded move receives a two-move
event (the opponent's reply); the reply is pushed, recorded, and
returned as move info since it is now white's turn. -/
theorem claim_C1_witness :
    (update_from_event (fun (b : List String) (mv : String) => b ++ [mv])
        (fun _ mv => mv)
        ⟨some "white", ["e2e4"], false, some "started", ["e2e4"]⟩
        ⟨"gameState", some "e2e4 e7e5", some "started", none⟩).2
      = UpdateResult.moveInfo (some ("e7e5", "e7e5")) := by
  have h := claim_C1_delta_move_classification
    (fun (b : List String) (mv : String) => b ++ [mv]) (fun _ mv => mv)
    ⟨some "white", ["e2e4"], false, some "started", ["e2e4"]⟩
    ⟨"gameState", some "e2e4 e7e5", some "started", none⟩ "white" "e7e5"
    rfl rfl (by decide) (by decide) (by decide)
    (by decide) (by decide) (by decide)
  rw [h.2.2.2]
  decide

/-- Claim C5: black with no recorded moves receiving a one-move event
(White's opening move already in the remote feed) applies that move to
the board replica, records it, and returns its (uci, san) pair as the
opponent's move at once — and it is now the local player's turn. -/
theorem claim_C5_black_first_move {B : Type} (pushUci : B → String → B)
    (sanOf : B → String → String) (s : GameState B) (e : GEvent) (m : String)
    (ht : e.type = "gameState") (hc : s.my_color = some "black")
    (hcur : s.current_moves = []) (hm1 : movesOf e = [m])
    (hm : e.status ≠ some "mate") (hr : e.status ≠ some "resign")
    (hd : e.status ≠ some "draw") :
    (update_from_event pushUci sanOf s e).1.board = pushUci s.board m
    ∧ (update_from_event pushUci sanOf s e).1.current_moves = [m]
    ∧ (update_from_event pushUci sanOf s e).1.is_my_turn = true
    ∧ (update_from_event pushUci sanOf s e).2
        = UpdateResult.moveInfo (some (m, sanOf s.board m)) := by
  have hb1 : s.current_moves.length = 0 ∧ s.my_color = some "black" := by
    rw [hcur, hc]
    exact ⟨rfl, rfl⟩
  have hlast : (movesOf e).getLast? = some m := by rw [hm1]; rfl
  unfold update_from_event
  rw [if_pos ht, if_pos hb1, hlast]
  simp only [finishUpdate_fst, finishUpdate_snd_moveInfo e _ _ hm hr hd]
  refine ⟨?_, ?_, ?_, ?_⟩ <;>
    first | trivial | rfl | exact hm1 | (rw [hm1, hc]; rfl)

/-- Claim C5 witness: the concrete one-move scenario for black. -/
theorem claim_C5_witness :
    (update_from_event (fun (b : List String) (mv : String) => b ++ [mv])
        (fun _ mv => mv)
        ⟨some "black", [], false, some "started", []⟩
        ⟨"gameState", some "e2e4", some "started", none⟩).2
      = UpdateResult.moveInfo (some ("e2e4", "e2e4")) := by
  have h := claim_C5_black_first_move
    (fun (b : List String) (mv : String) => b ++ [mv]) (fun _ mv => mv)
    ⟨some "black", [], false, some "started", []⟩
    ⟨"gameState", some "e2e4", some "started", none⟩ "e2e4"
    rfl rfl rfl (by decide) (by decide) (by decide) (by decide)
  exact h.2.2.2

/-- Claim C2 (code bug): an event whose move list is equal in length to
the recorded one does leave board and `current_moves` unchanged and
does copy the status, but the source then executes `return move_info`
with `move_info` never assigned, raising UnboundLocalError instead of
returning normally (line 79 of `game_state.py`; the guard
`if moves:` at line 48 is commented out). -/
theorem claim_C2_no_op_event_crash :
    update_from_event (fun (b : List String) (mv : String) => b ++ [mv])
        (fun _ mv => mv)
        ⟨some "white", ["e2e4"], true, none, ["e2e4"]⟩
        ⟨"gameState", some "e2e4", some "started", none⟩
      = (⟨some "white", ["e2e4"], false, some "started", ["e2e4"]⟩,
         UpdateResult.stateError "UnboundLocalError") := by
  decide

/-- Claim C4 counterexample: a token sequence containing a pawn synonym
and a capture synonym with no resolvable source file (no `from <file>`
phrase, no file token immediately before the pawn token, no bare file
token before the capture word) for which `parse_voice_to_san` still
returns a SAN string: in `knight takes pawn g5` the word `pawn` names
the captured piece, the pawn-capture block falls through, and the
general scan produces `Nxg5` rather than failing. -/
theorem claim_C4_counterexample :
    (hasPawnSyn ["knight", "takes", "pawn", "g5"] = true
      ∧ hasCaptureWord ["knight", "takes", "pawn", "g5"] = true
      ∧ hasFromFilePhrase ["knight", "takes", "pawn", "g5"] = false
      ∧ fileBeforePawn ["knight", "takes", "pawn", "g5"] = false
      ∧ fileBeforeCapture ["knight", "takes", "pawn", "g5"] = false)
    ∧ parseWords ["knight", "takes", "pawn", "g5"] = some "Nxg5" := by
  refine ⟨⟨?_, ?_, ?_, ?_, ?_⟩, ?_⟩ <;> decide

/-- Claim C4 (amended): for every token sequence without a castling
synonym, with no `from <file>` phrase, no file token immediately before
the first `pawn` token, and no bare file token before the first capture
word, in which the general scan resolves the moved piece to the pawn
(its piece field is the empty pawn marker) and records a capture,
`parse_voice_to_san` fails (returns none): a pawn-capture SAN lacking a
source file is never assembled.  (The original claim fails when the
pawn synonym is not consumed as the moved piece, e.g. when it names the
captured piece.) -/
theorem claim_C4_pawn_capture_no_source (ws : List String)
    (hcastle : hasCastle ws = false)
    (h3 : hasFromFilePhrase ws = false)
    (h4 : fileBeforePawn ws = false)
    (h5 : fileBeforeCapture ws = false)
    (hp : (scanWords ws).piece = some "")
    (hx : (scanWords ws).capture = true) :
    parseWords ws = none := by
  have hff : (scanWords ws).fromFile = none := scanWords_fromFile ws h3
  have hasm : assemble (scanWords ws) = none := by
    cases htg : (scanWords ws).target with
    | none => simp [assemble, htg]
    | some tgt => simp [assemble, htg, hp, hx, hff]
  unfold parseWords
  rw [hcastle]
  simp only [Bool.false_eq_true, if_false]
  by_cases hg : (ws.contains "pawn" && hasCaptureWord ws) = true
  · rw [hg]
    simp only [if_true]
    rw [specialSource_none h3 h4 h5]
    cases htg2 : specialTarget ws <;> simp only [hasm]
  · rw [Bool.not_eq_true] at hg
    rw [hg]
    simp only [Bool.false_eq_true, if_false]
    exact hasm

/-- Claim C4 witness: `pawn takes g5` — a pawn capture with no source
file — satisfies every hypothesis and fails to parse. -/
theorem claim_C4_witness : parseWords ["pawn", "takes", "g5"] = none :=
  claim_C4_pawn_capture_no_source ["pawn", "takes", "g5"]
    (by decide) (by decide) (by decide) (by decide) (by decide) (by decide)

/-- Claim C10: in the general scan, every newly recognized file+rank
square — whether written as two tokens or as one combined two-character
token — overwrites any previously resolved target square (the two
square branches of the loop store the new square into the skeleton
unconditionally); and the input `e2 to e4` parses to SAN `e4`, the last
square mentioned. -/
theorem claim_C10_last_square_wins :
    (∀ (sk : Skel) (f r : String) (rest : List String) (fv rv : String),
      List.lookup f filesList = some fv →
      List.lookup r ranksList = some rv →
      List.lookup f piecesList = none →
      capWord f = false → f ≠ "to" → f ≠ "promote" → f ≠ "promotes" → f ≠ "from" →
      scanWordsFrom (f :: r :: rest) sk
        = scanWordsFrom rest { sk with target := some (fv ++ rv) })
    ∧ (∀ (sk : Skel) (w : String) (rest : List String) (sq : String),
      List.lookup w piecesList = none →
      capWord w = false → w ≠ "to" → w ≠ "promote" → w ≠ "promotes" → w ≠ "from" →
      List.lookup w filesList = none →
      combinedSquare w = some sq →
      scanWordsFrom (w :: rest) sk = scanWordsFrom rest { sk with target := some sq })
    ∧ parse_voice_to_san "e2 to e4" = some "e4" := by
  refine ⟨?_, ?_, ?_⟩
  · intro sk f r rest fv rv hf hr hps hcap hto hp1 hp2 hfv
    have hstep : scanStep f (r :: rest) sk = (rest, { sk with target := some (fv ++ rv) }) := by
      simp [scanStep, hf, hr, hps, hcap, hto, hp1, hp2, hfv]
    rw [scanWordsFrom_step, hstep]
  · intro sk w rest sq hps hcap hto hp1 hp2 hfv hfile hsq
    have hstep : scanStep w rest sk = (rest, { sk with target := some sq }) := by
      cases rest with
      | nil => simp [scanStep, hps, hcap, hto, hp1, hp2, hfv, hfile, hsq]
      | cons b t => simp [scanStep, hps, hcap, hto, hp1, hp2, hfv, hfile, hsq]
    rw [scanWordsFrom_step, hstep]
  · decide

/-- Claim C10 witness: a square already stored in the skeleton is
overwritten by a later split-token square. -/
theorem claim_C10_witness :
    scanWordsFrom ["e", "4"]
        { piece := none, capture := false, target := some "e2",
          fromFile := none, fromRank := none, promo := none }
      = { piece := none, capture := false, target := some "e4",
          fromFile := none, fromRank := none, promo := none } := by
  have h := claim_C10_last_square_wins.1
    { piece := none, capture := false, target := some "e2",
      fromFile := none, fromRank := none, promo := none }
    "e" "4" [] "e" "4" rfl rfl rfl rfl
    (by decide) (by decide) (by decide) (by decide)
  rw [h]
  rfl

/-- Claim C9 witness: `"withdraw"` contains the substring `draw` inside
a longer word, matches no earlier command, and yields `draw` without
any move parsing. -/
theorem claim_C9_witness :
    parse_chess_notation_san_to_uci (fun _ => none) "withdraw" = some "draw" :=
  (claim_C9_session_commands (fun _ => none) "withdraw").2.2.2.2
    (by decide) (by decide) (by decide) (by decide) (by decide)

end ChessVoice
